import Mathlib

/-!
Shallow embedding of `jpype/_jproxy.py`: the dynamic-proxy bridge
(interface resolution, override discovery and validation, proxy class
synthesis in eager and deferred modes, the legacy `JProxy` construction
path, the `_JFromDict` adapter and `JProxy.unwrap`).
-/

namespace JPype

/-- A foreign (Java) method descriptor: name and modifier bits, as read
through reflection (`method.getName()`, `method.getModifiers()`). -/
structure Method where
  name : String
  modifiers : Nat
deriving DecidableEq, Repr

/-- A foreign (Java) class descriptor as exposed by the binding layer
(`_jpype.JClass`): qualified name, reflectable methods, and whether the
class satisfies the `_jpype.JInterface` marker. -/
structure JClassD where
  name : String
  methods : List Method
  isInterface : Bool
deriving DecidableEq, Repr

/-- A dynamically typed host-language value as it can appear in an
interface specification: a string, a foreign class descriptor, an
iterable of further values, or any other object (identified by a tag). -/
inductive PyVal where
  | str : String → PyVal
  | jclass : JClassD → PyVal
  | iter : List PyVal → PyVal
  | other : Nat → PyVal
deriving Repr

mutual

/-- Boolean equality on dynamic values (Python `__eq__`, as used by
`set` deduplication). -/
def PyVal.beq : PyVal → PyVal → Bool
  | .str a, .str b => a == b
  | .jclass a, .jclass b => a == b
  | .iter xs, .iter ys => PyVal.beqList xs ys
  | .other a, .other b => a == b
  | _, _ => false

/-- Boolean equality on lists of dynamic values, elementwise. -/
def PyVal.beqList : List PyVal → List PyVal → Bool
  | [], [] => true
  | x :: xs, y :: ys => PyVal.beq x y && PyVal.beqList xs ys
  | _, _ => false

end

mutual

/-- Soundness of `PyVal.beq`. -/
def PyVal.eq_of_beq : (a b : PyVal) → PyVal.beq a b = true → a = b
  | .str a, .str b, h => by
      have : a = b := by simpa [PyVal.beq] using h
      rw [this]
  | .jclass a, .jclass b, h => by
      have : a = b := by simpa [PyVal.beq] using h
      rw [this]
  | .iter xs, .iter ys, h => by
      have : xs = ys := PyVal.eqList_of_beqList xs ys (by simpa [PyVal.beq] using h)
      rw [this]
  | .other a, .other b, h => by
      have : a = b := by simpa [PyVal.beq] using h
      rw [this]
  | .str _, .jclass _, h => by simp [PyVal.beq] at h
  | .str _, .iter _, h => by simp [PyVal.beq] at h
  | .str _, .other _, h => by simp [PyVal.beq] at h
  | .jclass _, .str _, h => by simp [PyVal.beq] at h
  | .jclass _, .iter _, h => by simp [PyVal.beq] at h
  | .jclass _, .other _, h => by simp [PyVal.beq] at h
  | .iter _, .str _, h => by simp [PyVal.beq] at h
  | .iter _, .jclass _, h => by simp [PyVal.beq] at h
  | .iter _, .other _, h => by simp [PyVal.beq] at h
  | .other _, .str _, h => by simp [PyVal.beq] at h
  | .other _, .jclass _, h => by simp [PyVal.beq] at h
  | .other _, .iter _, h => by simp [PyVal.beq] at h

/-- Soundness of `PyVal.beqList`. -/
def PyVal.eqList_of_beqList : (xs ys : List PyVal) → PyVal.beqList xs ys = true → xs = ys
  | [], [], _ => rfl
  | [], _ :: _, h => by simp [PyVal.beqList] at h
  | _ :: _, [], h => by simp [PyVal.beqList] at h
  | x :: xs, y :: ys, h => by
      have h' : PyVal.beq x y = true ∧ PyVal.beqList xs ys = true := by
        simpa [PyVal.beqList, Bool.and_eq_true] using h
      rw [PyVal.eq_of_beq x y h'.1, PyVal.eqList_of_beqList xs ys h'.2]

end

mutual

/-- Reflexivity of `PyVal.beq`. -/
def PyVal.beq_refl : (a : PyVal) → PyVal.beq a a = true
  | .str a => by simp [PyVal.beq]
  | .jclass a => by simp [PyVal.beq]
  | .iter xs => by simpa [PyVal.beq] using PyVal.beqList_refl xs
  | .other a => by simp [PyVal.beq]

/-- Reflexivity of `PyVal.beqList`. -/
def PyVal.beqList_refl : (xs : List PyVal) → PyVal.beqList xs xs = true
  | [] => rfl
  | x :: xs => by
      simp [PyVal.beqList, Bool.and_eq_true]
      exact ⟨PyVal.beq_refl x, PyVal.beqList_refl xs⟩

end

instance : DecidableEq PyVal := fun a b =>
  decidable_of_iff (PyVal.beq a b = true)
    ⟨PyVal.eq_of_beq a b, fun h => by rw [h]; exact PyVal.beq_refl b⟩

/-- Python `isinstance(item, str)`. -/
def PyVal.isStr : PyVal → Bool
  | .str _ => true
  | _ => false

/-- Python `hasattr(item, s)` for the iteration member: strings and
iterables are iterable. -/
def PyVal.hasIter : PyVal → Bool
  | .str _ => true
  | .iter _ => true
  | _ => false

/-- The elements an iterable contributes under `list.extend`; only
reached for non-string iterables in `_convertInterfaces`. -/
def PyVal.elems : PyVal → List PyVal
  | .iter xs => xs
  | _ => []

/-- Python `isinstance(cls, _jpype.JClass)`. -/
def PyVal.isJClass : PyVal → Bool
  | .jclass _ => true
  | _ => false

/-- Python `issubclass(cls, _jpype.JInterface)`; only meaningful on
`jclass` values. -/
def PyVal.isJInterface : PyVal → Bool
  | .jclass c => c.isInterface
  | _ => false

/-- The name `cls.__name__` / `interface.class_.getName()`; only meaningful on
`jclass` values (attribute access on the others is never reached). -/
def PyVal.getName : PyVal → String
  | .jclass c => c.name
  | _ => ""

/-- Reflection `interface.class_.getMethods()`; only meaningful on
`jclass` values. -/
def PyVal.getMethods : PyVal → List Method
  | .jclass c => c.methods
  | _ => []

/-- The name `type(cls).__name__`, used in the first `TypeError` message of
`_convertInterfaces`. -/
def PyVal.typeName : PyVal → String
  | .str _ => "str"
  | .jclass _ => "JClass"
  | .iter _ => "list"
  | .other _ => "object"

/-- The error taxonomy of the spec, carrying the concrete exception
payloads of the code (`TypeError`, `NotImplementedError`,
`AttributeError`). -/
inductive Err where
  | configurationError : String → Err
  | typeKindError : String → Err
  | missingOverrideError : (interfaceName : String) → (methodName : String) → Err
  | lookupNotFoundError : String → Err
deriving DecidableEq, Repr

/-! ### Interface resolution (`_convertInterfaces`, lines 124-157) -/

/-- The flattening loop of `_convertInterfaces` (lines 129-134): a string
or a non-iterable is appended whole, any other iterable is extended into
the list (one level only). -/
def flattenStep (intf : List PyVal) : List PyVal :=
  intf.foldl
    (fun intflist item =>
      if item.isStr || !item.hasIter then intflist ++ [item]
      else intflist ++ item.elems)
    []

/-- Python `set.add`: insert if no equal element is present. -/
def setAdd (s : List PyVal) (x : PyVal) : List PyVal :=
  if x ∈ s then s else s ++ [x]

/-- The resolution loop of `_convertInterfaces` (lines 137-142) building
the set `actualIntf`: strings are resolved through the binding layer's
class lookup (`_jpype.JClass`), everything else is added directly. -/
def resolveStep (lookup : String → JClassD) (intflist : List PyVal) : List PyVal :=
  intflist.foldl
    (fun actualIntf item =>
      match item with
      | .str s => setAdd actualIntf (.jclass (lookup s))
      | x => setAdd actualIntf x)
    []

/-- The per-element kind check of `_convertInterfaces` (lines 148-155):
non-`JClass` values and `JClass`es that are not interfaces are rejected. -/
def checkAllInterfaces : List PyVal → Except Err Unit
  | [] => .ok ()
  | cls :: rest =>
    if !cls.isJClass then
      .error (.typeKindError ("'" ++ cls.typeName ++ "' is not a Java interface"))
    else if !cls.isJInterface then
      .error (.typeKindError ("'" ++ cls.getName ++ "' is not a Java interface"))
    else checkAllInterfaces rest

/-- Embeds `_convertInterfaces` (lines 124-157): flatten one level, resolve
strings into a deduplicated set, require non-emptiness, then check every
element is a Java interface. -/
def _convertInterfaces (lookup : String → JClassD) (intf : List PyVal) :
    Except Err (List PyVal) := do
  let intflist := flattenStep intf
  let actualIntf := resolveStep lookup intflist
  if actualIntf.isEmpty then
    throw (.configurationError "At least one Java interface must be specified")
  checkAllInterfaces actualIntf
  return actualIntf

/-! ### Override collection and validation (lines 25-33 and 46-62) -/

/-- A value in a host class's `__dict__`: `id` identifies the callable,
`joverride` is the `__joverride__` attribute when the member carries the
override-intent metadata (`@JOverride`), `none` when attribute access
raises `AttributeError`. -/
structure Member where
  id : Nat
  joverride : Option Nat
deriving DecidableEq, Repr

/-- A host class: `dict` is `cls.__dict__` (members declared directly on
the class); `baseDict` holds inherited members, which are visible to
ordinary attribute lookup but not to `cls.__dict__`. -/
structure HostClass where
  dict : List (String × Member)
  baseDict : List (String × Member)
deriving DecidableEq, Repr

/-- Embeds `_classOverrides` (lines 46-55): scan only `cls.__dict__` and keep
the members whose `__joverride__` attribute access succeeds. -/
def _classOverrides (cls : HostClass) : List (String × Member) :=
  cls.dict.foldl
    (fun overrides kv =>
      match kv.2.joverride with
      | some _ => overrides ++ [kv]
      | none => overrides)
    []

/-- Python `name in overrides`: key membership in the override mapping. -/
def containsKey (d : List (String × Member)) (k : String) : Bool :=
  d.any (fun kv => kv.1 == k)

/-- The inner loop of `_checkInterfaceOverrides` (lines 28-33): skip
methods whose modifier bits lack the abstract bit `1024`; an abstract
method whose name is not a key of `overrides` raises. -/
def checkMethods (iname : String) (overrides : List (String × Member)) :
    List Method → Except Err Unit
  | [] => .ok ()
  | m :: rest =>
    if m.modifiers &&& 1024 == 0 then checkMethods iname overrides rest
    else if !containsKey overrides m.name then
      .error (.missingOverrideError iname m.name)
    else checkMethods iname overrides rest

/-- Embeds `_checkInterfaceOverrides` (lines 25-33). -/
def _checkInterfaceOverrides (interfaces : List PyVal)
    (overrides : List (String × Member)) : Except Err Unit :=
  match interfaces with
  | [] => .ok ()
  | i :: rest => do
    checkMethods i.getName overrides i.getMethods
    _checkInterfaceOverrides rest overrides

/-- Embeds `_prepareInterfaces` (lines 57-62). -/
def _prepareInterfaces (lookup : String → JClassD) (cls : HostClass)
    (intf : List PyVal) : Except Err (List PyVal) := do
  let actualIntf ← _convertInterfaces lookup intf
  let overrides := _classOverrides cls
  _checkInterfaceOverrides actualIntf overrides
  return actualIntf

/-! ### Proxy class synthesis (`_createJProxy`, lines 36-78) -/

/-- The augmented type returned by `_createJProxy`: it closes over the
host class and the raw interface specification, and `attached` is its
`__jpype_interfaces__` slot (`none` when the attribute is absent). -/
structure ProxyType where
  base : HostClass
  intfSpec : List PyVal
  attached : Option (List PyVal)
deriving DecidableEq, Repr

/-- Embeds `_createJProxy` (lines 36-78): unknown keyword options are rejected;
in eager mode `_prepareInterfaces` runs now and its result is stored in
the `__jpype_interfaces__` member; in deferred mode no interface work
happens at declaration. -/
def _createJProxy (lookup : String → JClassD) (cls : HostClass)
    (intf : List PyVal) (deferred : Bool) (extraKwargs : List String) :
    Except Err ProxyType :=
  if !extraKwargs.isEmpty then
    .error (.configurationError
      ("Invalid keywords: " ++ String.intercalate "," extraKwargs))
  else if deferred then
    .ok ⟨cls, intf, none⟩
  else do
    let s ← _prepareInterfaces lookup cls intf
    .ok ⟨cls, intf, some s⟩

/-- Positional arguments of a host-class initializer call. -/
abbrev Args := List Nat

/-- A proxy instance allocated by `_jpype._JProxy.__new__(tp, None, intf)`,
instrumented with the log of host `__init__` invocations (each entry
records the arguments forwarded to one invocation). -/
structure PInstance where
  intf : List PyVal
  initLog : List Args
deriving DecidableEq, Repr

/-- Result of one run of `new`: the possibly updated type object, the
allocated instance, and (instrumentation) whether `_prepareInterfaces`
was invoked during this call. -/
structure NewResult where
  tp : ProxyType
  self : PInstance
  resolved : Bool
deriving DecidableEq, Repr

/-- Embeds `new` (lines 64-71): if the type has no `__jpype_interfaces__` yet,
compute and attach one; allocate through the native proxy base passing
the attached interface set; call the initializer on the fresh instance
with the forwarded arguments. -/
def new (lookup : String → JClassD) (tp : ProxyType) (args : Args) :
    Except Err NewResult :=
  match tp.attached with
  | none => do
    let s ← _prepareInterfaces lookup tp.base tp.intfSpec
    .ok ⟨{ tp with attached := some s }, ⟨s, [args]⟩, true⟩
  | some s => .ok ⟨tp, ⟨s, [args]⟩, false⟩

/-- Modelled from the spec: the host language's standard instantiation
protocol (`type.__call__`, external machinery per §1) invokes `__new__`,
and because the returned object is an instance of the class, invokes
`__init__` on it again with the same arguments. -/
def typeCall (lookup : String → JClassD) (tp : ProxyType) (args : Args) :
    Except Err NewResult := do
  let r ← new lookup tp args
  .ok { r with self := { r.self with initLog := r.self.initLog ++ [args] } }

/-! ### Legacy path (`_JFromDict` and `JProxy`, lines 160-216) -/

/-- Identity of a host callable stored in a legacy method dictionary. -/
abbrev Callable := Nat

/-- A host-language object on the legacy path: an ordinary object, a
`_JFromDict` adapter, or a `_jpype._JProxy` instance recording the
delegate handed to the native allocator, the interface tuple, and the
conversion flag. -/
inductive Obj where
  | plain : Nat → Obj
  | fromDict : List (String × Callable) → Obj
  | proxy : Obj → List PyVal → Bool → Obj
deriving DecidableEq, Repr

/-- Python `dict[name]` on a mapping with string keys. -/
def dictLookup : List (String × Callable) → String → Option Callable
  | [], _ => none
  | kv :: rest, k => if kv.1 == k then some kv.2 else dictLookup rest k

/-- Embeds `_JFromDict.__getattribute__` (lines 164-169): every attribute access
on the adapter is answered from the wrapped mapping; a name that is not a
key raises `AttributeError("attribute not found")`. -/
def _JFromDict_getattribute (dict : List (String × Callable)) (name : String) :
    Except Err Callable :=
  match dictLookup dict name with
  | some v => .ok v
  | none => .error (.lookupNotFoundError "attribute not found")

/-- Embeds `JProxy.__new__` (lines 196-210): convert the single interface
specification, reject both-or-neither of `dict`/`inst`, wrap a mapping in
`_JFromDict`, and hand the delegate, interface tuple and conversion flag
to the native allocator. -/
def JProxy_new (lookup : String → JClassD) (intf : PyVal)
    (dict : Option (List (String × Callable))) (inst : Option Obj)
    (convert : Bool) : Except Err Obj := do
  let actualIntf ← _convertInterfaces lookup [intf]
  if dict.isSome && inst.isSome then
    throw (.configurationError "Specify only one of dict and inst")
  match dict with
  | some d => return Obj.proxy (.fromDict d) actualIntf convert
  | none =>
    match inst with
    | some i => return Obj.proxy i actualIntf convert
    | none => throw (.configurationError "a dict or inst must be specified")

/-- Python `isinstance(obj, _jpype._JProxy)`. -/
def isJProxyInstance : Obj → Bool
  | .proxy _ _ _ => true
  | _ => false

/-- Modelled from the spec: `obj.__javainst__`, the native layer's
recorded "underlying host implementation" reference — the delegate passed
to the native allocator (`_jpype._JProxy` lives in the native module, not
in this repository; §4.7 of the spec). Only read on proxy instances. -/
def javainst : Obj → Obj
  | .proxy j _ _ => j
  | x => x

/-- Embeds `JProxy.unwrap` (lines 212-216). -/
def JProxy.unwrap (obj : Obj) : Obj :=
  if !isJProxyInstance obj then obj
  else javainst obj

/-! ### Specification-side definitions, used to state the properties -/

/-- What one item of the flattening loop contributes: strings and
non-iterables themselves, other iterables their elements. -/
def flattenItem (item : PyVal) : List PyVal :=
  if item.isStr || !item.hasIter then [item] else item.elems

/-- The descriptor an already-flattened item resolves to: a string goes
through the class lookup, anything else stands for itself. -/
def resolveItem (lookup : String → JClassD) : PyVal → PyVal
  | .str s => .jclass (lookup s)
  | x => x

/-- The first abstract method of a method list whose name is not a key of
the override mapping, in iteration order. -/
def firstMissingMethod (overrides : List (String × Member)) :
    List Method → Option String
  | [] => none
  | m :: rest =>
    if m.modifiers &&& 1024 != 0 && !containsKey overrides m.name then some m.name
    else firstMissingMethod overrides rest

/-- The first (interface qualified name, missing abstract method name)
pair over an interface list, in iteration order. -/
def firstMissing (overrides : List (String × Member)) :
    List PyVal → Option (String × String)
  | [] => none
  | i :: rest =>
    match firstMissingMethod overrides i.getMethods with
    | some m => some (i.getName, m)
    | none => firstMissing overrides rest

/-- The first element of a resolved set that is not a Java interface
descriptor, in iteration order. -/
def firstBadInterface : List PyVal → Option PyVal
  | [] => none
  | c :: rest =>
    if !c.isJClass || !c.isJInterface then some c else firstBadInterface rest

/-- The `TypeError` message the kind check produces for a bad element:
the value's type name when it is not a `JClass` at all, its own class
name when it is a non-interface `JClass`. -/
def badInterfaceMsg (c : PyVal) : String :=
  if !c.isJClass then "'" ++ c.typeName ++ "' is not a Java interface"
  else "'" ++ c.getName ++ "' is not a Java interface"

/-! ### Sample foreign runtime used by the witnesses -/

/-- A sample foreign interface with one abstract method (`run`, modifier
bits `1025 = PUBLIC ||| ABSTRACT`) and one default method. -/
def sampleRunnable : JClassD :=
  ⟨"java.lang.Runnable", [⟨"run", 1025⟩, ⟨"equals", 1⟩], true⟩

/-- A sample concrete (non-interface) foreign class. -/
def sampleConcrete : JClassD := ⟨"java.lang.String", [], false⟩

/-- A sample binding-layer class lookup. -/
def sampleLookup : String → JClassD :=
  fun s => if s == "java.lang.Runnable" then sampleRunnable else sampleConcrete

/-- The resolved interface set for `["java.lang.Runnable"]`. -/
def sampleSet : List PyVal := [.jclass sampleRunnable]

/-- A host class declaring a tagged `run` override and an untagged
helper. -/
def sampleGoodClass : HostClass :=
  ⟨[("run", ⟨0, some 0⟩), ("helper", ⟨1, none⟩)], []⟩

/-- A host class whose `run` override lives only on a base class. -/
def sampleBadClass : HostClass :=
  ⟨[("helper", ⟨1, none⟩)], [("run", ⟨0, some 0⟩)]⟩

/-- A legacy proxy delegating to a plain object. -/
def sampleInnerProxy : Obj := .proxy (.plain 0) sampleSet false

/-- A legacy proxy whose delegate is itself a proxy. -/
def sampleOuterProxy : Obj := .proxy sampleInnerProxy sampleSet false

/-! ### Helper lemmas on flattening and set building -/

theorem flattenStep_eq (intf : List PyVal) :
    flattenStep intf = intf.flatMap flattenItem := by
  have aux : ∀ (l acc : List PyVal),
      l.foldl
        (fun intflist item =>
          if item.isStr || !item.hasIter then intflist ++ [item]
          else intflist ++ item.elems)
        acc = acc ++ l.flatMap flattenItem := by
    intro l
    induction l with
    | nil => intro acc; simp
    | cons x xs ih =>
      intro acc
      rw [List.foldl_cons, ih, List.flatMap_cons]
      unfold flattenItem
      split <;> simp
  unfold flattenStep
  rw [aux intf [], List.nil_append]

theorem mem_setAdd (s : List PyVal) (x y : PyVal) :
    x ∈ setAdd s y ↔ x ∈ s ∨ x = y := by
  unfold setAdd
  split
  · rename_i h
    constructor
    · exact Or.inl
    · rintro (hx | rfl)
      · exact hx
      · exact h
  · simp [List.mem_append]

theorem nodup_setAdd (s : List PyVal) (y : PyVal) (h : s.Nodup) :
    (setAdd s y).Nodup := by
  unfold setAdd
  split
  · exact h
  · rename_i hy
    rw [List.nodup_append]
    refine ⟨h, List.nodup_singleton y, ?_⟩
    intro a ha hay
    rw [List.mem_singleton] at hay
    exact hy (hay ▸ ha)

theorem resolveStep_eq_foldl (lookup : String → JClassD) (l : List PyVal) :
    resolveStep lookup l =
      l.foldl (fun acc item => setAdd acc (resolveItem lookup item)) [] := by
  unfold resolveStep
  congr 1
  funext acc item
  cases item <;> rfl

theorem mem_foldl_setAdd (lookup : String → JClassD) (l : List PyVal) :
    ∀ (acc : List PyVal) (x : PyVal),
      x ∈ l.foldl (fun acc item => setAdd acc (resolveItem lookup item)) acc ↔
        x ∈ acc ∨ ∃ i ∈ l, x = resolveItem lookup i := by
  induction l with
  | nil => intro acc x; simp
  | cons i l ih =>
    intro acc x
    rw [List.foldl_cons, ih, mem_setAdd]
    constructor
    · rintro ((h | h) | ⟨j, hj, rfl⟩)
      · exact Or.inl h
      · exact Or.inr ⟨i, List.mem_cons_self i l, h⟩
      · exact Or.inr ⟨j, List.mem_cons_of_mem i hj, rfl⟩
    · rintro (h | ⟨j, hj, hx⟩)
      · exact Or.inl (Or.inl h)
      · rcases List.mem_cons.1 hj with rfl | hj2
        · exact Or.inl (Or.inr hx)
        · exact Or.inr ⟨j, hj2, hx⟩

theorem nodup_foldl_setAdd (lookup : String → JClassD) (l : List PyVal) :
    ∀ acc : List PyVal, acc.Nodup →
      (l.foldl (fun acc item => setAdd acc (resolveItem lookup item)) acc).Nodup := by
  induction l with
  | nil => intro acc h; simpa using h
  | cons i l ih =>
    intro acc h
    exact ih _ (nodup_setAdd _ _ h)

theorem resolveItem_of_item (lookup : String → JClassD) (a x : PyVal) :
    (∃ i ∈ flattenItem a, x = resolveItem lookup i) ↔
      ((∃ s, a = PyVal.str s ∧ x = .jclass (lookup s)) ∨
       (∃ xs, a = PyVal.iter xs ∧
         ((∃ s, PyVal.str s ∈ xs ∧ x = .jclass (lookup s)) ∨
          (x ∈ xs ∧ x.isStr = false))) ∨
       (x = a ∧ a.isStr = false ∧ a.hasIter = false)) := by
  cases a with
  | str s =>
    constructor
    · rintro ⟨i, hi, rfl⟩
      rcases List.mem_singleton.1 hi with rfl
      exact Or.inl ⟨s, rfl, rfl⟩
    · rintro (⟨t, ht, rfl⟩ | ⟨ys, hys, h⟩ | ⟨rfl, h2, h3⟩)
      · injection ht with h
        subst h
        exact ⟨.str s, List.mem_singleton.2 rfl, rfl⟩
      · exact PyVal.noConfusion hys
      · exact Bool.noConfusion h2
  | jclass c =>
    constructor
    · rintro ⟨i, hi, rfl⟩
      rcases List.mem_singleton.1 hi with rfl
      exact Or.inr (Or.inr ⟨rfl, rfl, rfl⟩)
    · rintro (⟨t, ht, rfl⟩ | ⟨ys, hys, h⟩ | ⟨rfl, h2, h3⟩)
      · exact PyVal.noConfusion ht
      · exact PyVal.noConfusion hys
      · exact ⟨.jclass c, List.mem_singleton.2 rfl, rfl⟩
  | iter xs =>
    constructor
    · rintro ⟨i, hi, rfl⟩
      have hi2 : i ∈ xs := hi
      refine Or.inr (Or.inl ⟨xs, rfl, ?_⟩)
      cases i with
      | str t => exact Or.inl ⟨t, hi2, rfl⟩
      | jclass c => exact Or.inr ⟨hi2, rfl⟩
      | iter ys => exact Or.inr ⟨hi2, rfl⟩
      | other n => exact Or.inr ⟨hi2, rfl⟩
    · rintro (⟨t, ht, rfl⟩ | ⟨ys, hys, h⟩ | ⟨rfl, h2, h3⟩)
      · exact PyVal.noConfusion ht
      · injection hys with h2
        subst h2
        rcases h with ⟨t, ht, rfl⟩ | ⟨hx, hstr⟩
        · exact ⟨.str t, ht, rfl⟩
        · refine ⟨x, hx, ?_⟩
          cases x with
          | str t => exact Bool.noConfusion hstr
          | jclass c => rfl
          | iter ys => rfl
          | other n => rfl
      · exact Bool.noConfusion h3
  | other n =>
    constructor
    · rintro ⟨i, hi, rfl⟩
      rcases List.mem_singleton.1 hi with rfl
      exact Or.inr (Or.inr ⟨rfl, rfl, rfl⟩)
    · rintro (⟨t, ht, rfl⟩ | ⟨ys, hys, h⟩ | ⟨rfl, h2, h3⟩)
      · exact PyVal.noConfusion ht
      · exact PyVal.noConfusion hys
      · exact ⟨.other n, List.mem_singleton.2 rfl, rfl⟩

end JPype

namespace JPype

theorem checkMethods_eq (iname : String) (overrides : List (String × Member))
    (ms : List Method) :
    checkMethods iname overrides ms =
      match firstMissingMethod overrides ms with
      | none => .ok ()
      | some n => .error (.missingOverrideError iname n) := by
  induction ms with
  | nil => rfl
  | cons m rest ih =>
    unfold checkMethods firstMissingMethod
    by_cases h1 : m.modifiers &&& 1024 = 0
    · simp [h1, ih]
    · by_cases h2 : containsKey overrides m.name = true
      · simp [h1, h2, ih]
      · simp [h1, h2]

theorem firstMissingMethod_none_iff (overrides : List (String × Member))
    (ms : List Method) :
    firstMissingMethod overrides ms = none ↔
      ∀ m ∈ ms, m.modifiers &&& 1024 ≠ 0 → containsKey overrides m.name = true := by
  induction ms with
  | nil => simp [firstMissingMethod]
  | cons m rest ih =>
    unfold firstMissingMethod
    by_cases h1 : m.modifiers &&& 1024 = 0
    · simp [h1, ih]
    · by_cases h2 : containsKey overrides m.name = true
      · simp [h1, h2, ih]
      · simp [h1, h2]


theorem checkInterfaceOverrides_eq (overrides : List (String × Member))
    (interfaces : List PyVal) :
    _checkInterfaceOverrides interfaces overrides =
      match firstMissing overrides interfaces with
      | none => .ok ()
      | some p => .error (.missingOverrideError p.1 p.2) := by
  induction interfaces with
  | nil => rfl
  | cons i rest ih =>
    unfold _checkInterfaceOverrides firstMissing
    rw [checkMethods_eq]
    cases h : firstMissingMethod overrides i.getMethods with
    | none => simpa using ih
    | some n => rfl

theorem firstMissing_none_iff (overrides : List (String × Member))
    (interfaces : List PyVal) :
    firstMissing overrides interfaces = none ↔
      ∀ i ∈ interfaces, firstMissingMethod overrides i.getMethods = none := by
  induction interfaces with
  | nil => simp [firstMissing]
  | cons i rest ih =>
    unfold firstMissing
    cases h : firstMissingMethod overrides i.getMethods with
    | none => simp [h, ih]
    | some n => simp [h]

theorem classOverrides_eq (cls : HostClass) :
    _classOverrides cls = cls.dict.filter (fun kv => kv.2.joverride.isSome) := by
  have aux : ∀ (l acc : List (String × Member)),
      l.foldl
        (fun overrides kv =>
          match kv.2.joverride with
          | some _ => overrides ++ [kv]
          | none => overrides)
        acc = acc ++ l.filter (fun kv => kv.2.joverride.isSome) := by
    intro l
    induction l with
    | nil => intro acc; simp
    | cons kv rest ih =>
      intro acc
      rw [List.foldl_cons]
      cases h : kv.2.joverride with
      | none => simp only [h, ih, List.filter_cons]; simp [h]
      | some v => simp only [h, ih, List.filter_cons]; simp [h, List.append_assoc]
  unfold _classOverrides
  rw [aux cls.dict [], List.nil_append]

theorem containsKey_iff (d : List (String × Member)) (k : String) :
    containsKey d k = true ↔ ∃ m, (k, m) ∈ d := by
  unfold containsKey
  rw [List.any_eq_true]
  constructor
  · rintro ⟨kv, hkv, he⟩
    have h1 : kv.1 = k := by simpa using he
    refine ⟨kv.2, ?_⟩
    rw [← h1]
    exact hkv
  · rintro ⟨m, hm⟩
    exact ⟨(k, m), hm, by simp⟩

theorem checkAllInterfaces_eq (l : List PyVal) :
    checkAllInterfaces l =
      match firstBadInterface l with
      | none => .ok ()
      | some c => .error (.typeKindError (badInterfaceMsg c)) := by
  induction l with
  | nil => rfl
  | cons c rest ih =>
    unfold checkAllInterfaces firstBadInterface
    by_cases h1 : c.isJClass = true
    · by_cases h2 : c.isJInterface = true
      · simp [h1, h2, ih]
      · simp [h1, h2, badInterfaceMsg]
    · simp [h1, badInterfaceMsg]

theorem firstBadInterface_none_iff (l : List PyVal) :
    firstBadInterface l = none ↔
      ∀ c ∈ l, c.isJClass = true ∧ c.isJInterface = true := by
  induction l with
  | nil => simp [firstBadInterface]
  | cons c rest ih =>
    unfold firstBadInterface
    by_cases h1 : c.isJClass = true
    · by_cases h2 : c.isJInterface = true
      · simp [h1, h2, ih]
      · simp [h1, h2]
    · simp [h1]

theorem firstBadInterface_some (l : List PyVal) (c : PyVal)
    (h : firstBadInterface l = some c) :
    c ∈ l ∧ (c.isJClass = false ∨ c.isJInterface = false) := by
  induction l with
  | nil => exact absurd h (by simp [firstBadInterface])
  | cons d rest ih =>
    unfold firstBadInterface at h
    by_cases h1 : (!d.isJClass || !d.isJInterface) = true
    · rw [if_pos h1] at h
      injection h with h2
      subst h2
      refine ⟨List.mem_cons_self d rest, ?_⟩
      simpa using h1
    · rw [if_neg h1] at h
      rcases ih h with ⟨hm, hb⟩
      exact ⟨List.mem_cons_of_mem d hm, hb⟩


theorem convertInterfaces_eq (lookup : String → JClassD) (intf : List PyVal) :
    _convertInterfaces lookup intf =
      if (resolveStep lookup (flattenStep intf)).isEmpty then
        .error (.configurationError "At least one Java interface must be specified")
      else
        match firstBadInterface (resolveStep lookup (flattenStep intf)) with
        | none => .ok (resolveStep lookup (flattenStep intf))
        | some c => .error (.typeKindError (badInterfaceMsg c)) := by
  unfold _convertInterfaces
  by_cases h : (resolveStep lookup (flattenStep intf)).isEmpty = true
  · simp only [h, if_true]
    rfl
  · simp only [h, if_false, Bool.false_eq_true]
    rw [checkAllInterfaces_eq]
    cases hfb : firstBadInterface (resolveStep lookup (flattenStep intf)) with
    | none => rfl
    | some c => rfl


theorem prepareInterfaces_err (lookup : String → JClassD) (cls : HostClass)
    (intf : List PyVal) (e : Err)
    (hc : _convertInterfaces lookup intf = .error e) :
    _prepareInterfaces lookup cls intf = .error e := by
  unfold _prepareInterfaces
  rw [hc]
  rfl

theorem prepareInterfaces_of_ok (lookup : String → JClassD) (cls : HostClass)
    (intf : List PyVal) (s : List PyVal)
    (hc : _convertInterfaces lookup intf = .ok s) :
    _prepareInterfaces lookup cls intf =
      match firstMissing (_classOverrides cls) s with
      | none => .ok s
      | some p => .error (.missingOverrideError p.1 p.2) := by
  unfold _prepareInterfaces
  rw [hc]
  show (_checkInterfaceOverrides s (_classOverrides cls) >>= fun _ =>
    pure s : Except Err (List PyVal)) = _
  rw [checkInterfaceOverrides_eq]
  cases hm : firstMissing (_classOverrides cls) s <;> rfl


/-- C1: Override validation of a host class against a resolved interface
set considers only members declared directly on that class that carry
`__joverride__` metadata; it succeeds iff for every interface in the set
every method whose modifier bits have the abstract bit `1024` has its
name among those members; it fails exactly with the `MissingOverrideError`
naming the first interface (in iteration order) with a missing abstract
method and that method's name; methods with the abstract bit clear impose
no obligation. -/
theorem override_validation_complete (interfaces : List PyVal) (cls : HostClass) :
    (∀ k, containsKey (_classOverrides cls) k = true ↔
      ∃ m, (k, m) ∈ cls.dict ∧ m.joverride.isSome = true) ∧
    (_checkInterfaceOverrides interfaces (_classOverrides cls) = .ok () ↔
      ∀ i ∈ interfaces, ∀ m ∈ i.getMethods, m.modifiers &&& 1024 ≠ 0 →
        containsKey (_classOverrides cls) m.name = true) ∧
    (∀ iname mname,
      _checkInterfaceOverrides interfaces (_classOverrides cls) =
          .error (.missingOverrideError iname mname) ↔
        firstMissing (_classOverrides cls) interfaces = some (iname, mname)) := by
  refine ⟨?_, ?_, ?_⟩
  · intro k
    rw [containsKey_iff, classOverrides_eq]
    constructor
    · rintro ⟨m, hm⟩
      rw [List.mem_filter] at hm
      exact ⟨m, hm.1, by simpa using hm.2⟩
    · rintro ⟨m, hm1, hm2⟩
      exact ⟨m, List.mem_filter.2 ⟨hm1, by simpa using hm2⟩⟩
  · rw [checkInterfaceOverrides_eq]
    cases hm : firstMissing (_classOverrides cls) interfaces with
    | none =>
      constructor
      · intro _ i hi m hmm habs
        have h1 := (firstMissing_none_iff _ _).1 hm i hi
        exact (firstMissingMethod_none_iff _ _).1 h1 m hmm habs
      · intro _
        rfl
    | some p =>
      constructor
      · intro h
        cases h
      · intro hall
        exfalso
        have h1 : firstMissing (_classOverrides cls) interfaces = none := by
          rw [firstMissing_none_iff]
          intro i hi
          rw [firstMissingMethod_none_iff]
          exact fun m hmm habs => hall i hi m hmm habs
        rw [h1] at hm
        cases hm
  · intro iname mname
    rw [checkInterfaceOverrides_eq]
    cases hm : firstMissing (_classOverrides cls) interfaces with
    | none => simp
    | some p =>
      simp only [Except.error.injEq, Err.missingOverrideError.injEq,
        Option.some.injEq, Prod.ext_iff]

/-- C2: A deferred-mode proxy type initially carries no attached interface
set, and its declaration never raises; at first instantiation the set is
computed by `_prepareInterfaces` (any error surfaces here) and attached;
every later instantiation of the updated type reuses the identical cached
set with no further resolution. -/
theorem deferred_binding_caches_once (lookup : String → JClassD)
    (cls : HostClass) (intf : List PyVal) :
    (_createJProxy lookup cls intf true [] = .ok ⟨cls, intf, none⟩) ∧
    (∀ e, _prepareInterfaces lookup cls intf = .error e →
      ∀ args, new lookup ⟨cls, intf, none⟩ args = .error e) ∧
    (∀ s, _prepareInterfaces lookup cls intf = .ok s →
      ∀ args args2,
        new lookup ⟨cls, intf, none⟩ args =
          .ok ⟨⟨cls, intf, some s⟩, ⟨s, [args]⟩, true⟩ ∧
        new lookup ⟨cls, intf, some s⟩ args2 =
          .ok ⟨⟨cls, intf, some s⟩, ⟨s, [args2]⟩, false⟩) := by
  refine ⟨rfl, ?_, ?_⟩
  · intro e he args
    have h0 : new lookup ⟨cls, intf, none⟩ args =
        (_prepareInterfaces lookup cls intf >>= fun s =>
          Except.ok ⟨⟨cls, intf, some s⟩, ⟨s, [args]⟩, true⟩) := rfl
    rw [h0, he]
    rfl
  · intro s hs args args2
    have h0 : new lookup ⟨cls, intf, none⟩ args =
        (_prepareInterfaces lookup cls intf >>= fun s =>
          Except.ok ⟨⟨cls, intf, some s⟩, ⟨s, [args]⟩, true⟩) := rfl
    rw [h0, hs]
    exact ⟨rfl, rfl⟩

/-- C3: In eager mode everything (resolution, override collection,
validation) runs at declaration: a validation error aborts class creation
with that error, and on success the returned type carries the attached
interface set, equal to the deduplicated resolved set produced by
`_convertInterfaces`. -/
theorem eager_binding_validates_at_declaration (lookup : String → JClassD)
    (cls : HostClass) (intf : List PyVal) :
    (∀ e, _prepareInterfaces lookup cls intf = .error e →
      _createJProxy lookup cls intf false [] = .error e) ∧
    (∀ s, _prepareInterfaces lookup cls intf = .ok s →
      _createJProxy lookup cls intf false [] = .ok ⟨cls, intf, some s⟩ ∧
      _convertInterfaces lookup intf = .ok s) := by
  have h0 : _createJProxy lookup cls intf false [] =
      (_prepareInterfaces lookup cls intf >>= fun s =>
        Except.ok ⟨cls, intf, some s⟩) := rfl
  constructor
  · intro e he
    rw [h0, he]
    rfl
  · intro s hs
    refine ⟨by rw [h0, hs]; rfl, ?_⟩
    cases hc : _convertInterfaces lookup intf with
    | error e =>
      rw [prepareInterfaces_err lookup cls intf e hc] at hs
      cases hs
    | ok s2 =>
      have h1 := prepareInterfaces_of_ok lookup cls intf s2 hc
      rw [h1] at hs
      cases hm : firstMissing (_classOverrides cls) s2 with
      | none =>
        rw [hm] at hs
        injection hs with h2
        rw [h2]
      | some p =>
        rw [hm] at hs
        cases hs

/-- C4: An interface specification whose flattened, resolved set is empty
is rejected with the `ConfigurationError` "at least one interface
required" in both binding modes: at declaration in eager mode, and at
first instantiation of the type produced in deferred mode. -/
theorem empty_interface_set_rejected (lookup : String → JClassD)
    (cls : HostClass) (intf : List PyVal)
    (h : resolveStep lookup (flattenStep intf) = []) :
    _convertInterfaces lookup intf =
      .error (.configurationError "At least one Java interface must be specified") ∧
    _createJProxy lookup cls intf false [] =
      .error (.configurationError "At least one Java interface must be specified") ∧
    (∀ tp, _createJProxy lookup cls intf true [] = .ok tp →
      ∀ args, new lookup tp args =
        .error (.configurationError "At least one Java interface must be specified")) := by
  have hconv : _convertInterfaces lookup intf =
      .error (.configurationError "At least one Java interface must be specified") := by
    rw [convertInterfaces_eq, h]
    rfl
  have hprep := prepareInterfaces_err lookup cls intf _ hconv
  refine ⟨hconv, ?_, ?_⟩
  · have h0 : _createJProxy lookup cls intf false [] =
        (_prepareInterfaces lookup cls intf >>= fun s =>
          Except.ok ⟨cls, intf, some s⟩) := rfl
    rw [h0, hprep]
    rfl
  · intro tp htp args
    have h1 : (Except.ok (⟨cls, intf, none⟩ : ProxyType) : Except Err ProxyType) =
        .ok tp := htp
    injection h1 with h2
    subst h2
    have h0 : new lookup ⟨cls, intf, none⟩ args =
        (_prepareInterfaces lookup cls intf >>= fun s =>
          Except.ok ⟨⟨cls, intf, some s⟩, ⟨s, [args]⟩, true⟩) := rfl
    rw [h0, hprep]
    rfl


/-- C5: Interface resolution flattens its input exactly one level — a
string item is kept whole and resolved through the class lookup, a
non-string iterable contributes its elements (which are not flattened
further: a nested iterable stays an element, and strings inside an
iterable are resolved), any other item stands for itself — and the result
is a deduplicated set, which is exactly what `_convertInterfaces` returns
when it succeeds. -/
theorem interface_flattening_and_dedup (lookup : String → JClassD)
    (intf : List PyVal) :
    (resolveStep lookup (flattenStep intf)).Nodup ∧
    (∀ x, x ∈ resolveStep lookup (flattenStep intf) ↔
      ((∃ s, PyVal.str s ∈ intf ∧ x = .jclass (lookup s)) ∨
       (∃ xs, PyVal.iter xs ∈ intf ∧
         ((∃ s, PyVal.str s ∈ xs ∧ x = .jclass (lookup s)) ∨
          (x ∈ xs ∧ x.isStr = false))) ∨
       (x ∈ intf ∧ x.isStr = false ∧ x.hasIter = false))) ∧
    (∀ s, _convertInterfaces lookup intf = .ok s →
      s = resolveStep lookup (flattenStep intf)) := by
  refine ⟨?_, ?_, ?_⟩
  · rw [resolveStep_eq_foldl]
    exact nodup_foldl_setAdd lookup _ [] List.nodup_nil
  · intro x
    rw [resolveStep_eq_foldl, mem_foldl_setAdd, flattenStep_eq]
    simp only [List.not_mem_nil, false_or]
    constructor
    · rintro ⟨i, hi, rfl⟩
      rw [List.mem_flatMap] at hi
      obtain ⟨a, ha, hia⟩ := hi
      have h1 := (resolveItem_of_item lookup a (resolveItem lookup i)).1 ⟨i, hia, rfl⟩
      rcases h1 with ⟨s, rfl, hx⟩ | ⟨xs, rfl, hx⟩ | ⟨hx, h2, h3⟩
      · exact Or.inl ⟨s, ha, hx⟩
      · exact Or.inr (Or.inl ⟨xs, ha, hx⟩)
      · refine Or.inr (Or.inr ?_)
        rw [hx]
        exact ⟨ha, h2, h3⟩
    · rintro (⟨s, hs, rfl⟩ | ⟨xs, hxs, hx⟩ | ⟨hx, h2, h3⟩)
      · exact ⟨.str s, List.mem_flatMap.2 ⟨.str s, hs, List.mem_singleton.2 rfl⟩, rfl⟩
      · obtain ⟨i, hi, hxi⟩ :=
          (resolveItem_of_item lookup (.iter xs) x).2 (Or.inr (Or.inl ⟨xs, rfl, hx⟩))
        exact ⟨i, List.mem_flatMap.2 ⟨.iter xs, hxs, hi⟩, hxi⟩
      · obtain ⟨i, hi, hxi⟩ :=
          (resolveItem_of_item lookup x x).2 (Or.inr (Or.inr ⟨rfl, h2, h3⟩))
        exact ⟨i, List.mem_flatMap.2 ⟨x, hx, hi⟩, hxi⟩
  · intro s hs
    rw [convertInterfaces_eq] at hs
    by_cases he : (resolveStep lookup (flattenStep intf)).isEmpty = true
    · rw [if_pos he] at hs
      cases hs
    · rw [if_neg he] at hs
      cases hfb : firstBadInterface (resolveStep lookup (flattenStep intf)) with
      | none =>
        rw [hfb] at hs
        injection hs with h1
        rw [h1]
      | some c =>
        rw [hfb] at hs
        cases hs

/-- C6: After the non-emptiness check, every element of the resolved set
is validated: if any element is not a `JClass` descriptor or is a
non-interface class, resolution fails with a `TypeKindError` naming some
offending element (the first in iteration order), and the same error
surfaces in eager mode at declaration and in deferred mode at first
instantiation. -/
theorem non_interface_rejected (lookup : String → JClassD) (cls : HostClass)
    (intf : List PyVal) (c : PyVal)
    (hne : resolveStep lookup (flattenStep intf) ≠ [])
    (hmem : c ∈ resolveStep lookup (flattenStep intf))
    (hbad : c.isJClass = false ∨ c.isJInterface = false) :
    ∃ b ∈ resolveStep lookup (flattenStep intf),
      (b.isJClass = false ∨ b.isJInterface = false) ∧
      _convertInterfaces lookup intf = .error (.typeKindError (badInterfaceMsg b)) ∧
      _createJProxy lookup cls intf false [] =
        .error (.typeKindError (badInterfaceMsg b)) ∧
      (∀ args, new lookup ⟨cls, intf, none⟩ args =
        .error (.typeKindError (badInterfaceMsg b))) := by
  have hfb : ∃ b, firstBadInterface (resolveStep lookup (flattenStep intf)) = some b := by
    cases hf : firstBadInterface (resolveStep lookup (flattenStep intf)) with
    | some b => exact ⟨b, rfl⟩
    | none =>
      have h1 := (firstBadInterface_none_iff _).1 hf c hmem
      rcases hbad with h2 | h2
      · rw [h1.1] at h2
        cases h2
      · rw [h1.2] at h2
        cases h2
  obtain ⟨b, hb⟩ := hfb
  obtain ⟨hbmem, hbbad⟩ := firstBadInterface_some _ b hb
  have hconv : _convertInterfaces lookup intf =
      .error (.typeKindError (badInterfaceMsg b)) := by
    rw [convertInterfaces_eq, if_neg (fun h2 => hne (List.isEmpty_iff.1 h2)), hb]
  have hprep := prepareInterfaces_err lookup cls intf _ hconv
  refine ⟨b, hbmem, hbbad, hconv, ?_, ?_⟩
  · have h0 : _createJProxy lookup cls intf false [] =
        (_prepareInterfaces lookup cls intf >>= fun s =>
          Except.ok ⟨cls, intf, some s⟩) := rfl
    rw [h0, hprep]
    rfl
  · intro args
    have h0 : new lookup ⟨cls, intf, none⟩ args =
        (_prepareInterfaces lookup cls intf >>= fun s =>
          Except.ok ⟨⟨cls, intf, some s⟩, ⟨s, [args]⟩, true⟩) := rfl
    rw [h0, hprep]
    rfl

/-- C7: Legacy construction with a valid interface specification fails
with a `ConfigurationError` when both a dict and an instance are supplied
and when neither is; with exactly a dict, the dict is wrapped in
`_JFromDict` before being handed to the native allocator together with
the conversion flag passed through verbatim, and no override-completeness
validation happens (any dict is accepted). -/
theorem legacy_proxy_construction (lookup : String → JClassD) (intfArg : PyVal)
    (s : List PyVal) (hs : _convertInterfaces lookup [intfArg] = .ok s)
    (d : List (String × Callable)) (o : Obj) (convert : Bool) :
    JProxy_new lookup intfArg (some d) (some o) convert =
      .error (.configurationError "Specify only one of dict and inst") ∧
    JProxy_new lookup intfArg none none convert =
      .error (.configurationError "a dict or inst must be specified") ∧
    JProxy_new lookup intfArg (some d) none convert =
      .ok (.proxy (.fromDict d) s convert) := by
  refine ⟨?_, ?_, ?_⟩
  · have h0 : JProxy_new lookup intfArg (some d) (some o) convert =
        (_convertInterfaces lookup [intfArg] >>= fun actualIntf =>
          Except.error (.configurationError "Specify only one of dict and inst")) := rfl
    rw [h0, hs]
    rfl
  · have h0 : JProxy_new lookup intfArg none none convert =
        (_convertInterfaces lookup [intfArg] >>= fun actualIntf =>
          Except.error (.configurationError "a dict or inst must be specified")) := rfl
    rw [h0, hs]
    rfl
  · have h0 : JProxy_new lookup intfArg (some d) none convert =
        (_convertInterfaces lookup [intfArg] >>= fun actualIntf =>
          Except.ok (.proxy (.fromDict d) actualIntf convert)) := rfl
    rw [h0, hs]
    rfl


theorem dictLookup_mem (d : List (String × Callable)) (k : String) (v : Callable)
    (h : dictLookup d k = some v) : (k, v) ∈ d := by
  induction d with
  | nil => cases h
  | cons kv rest ih =>
    unfold dictLookup at h
    by_cases hk : (kv.1 == k) = true
    · rw [if_pos hk] at h
      injection h with h1
      have h2 : kv.1 = k := by simpa using hk
      subst h2
      rw [← h1]
      exact List.mem_cons_self kv rest
    · rw [if_neg hk] at h
      exact List.mem_cons_of_mem kv (ih h)

theorem dictLookup_isSome_of_mem (d : List (String × Callable)) (k : String)
    (v : Callable) (h : (k, v) ∈ d) : ∃ w, dictLookup d k = some w := by
  induction d with
  | nil => cases h
  | cons kv rest ih =>
    unfold dictLookup
    by_cases hk : (kv.1 == k) = true
    · rw [if_pos hk]
      exact ⟨kv.2, rfl⟩
    · rw [if_neg hk]
      rcases List.mem_cons.1 h with h2 | h2
      · rw [← h2] at hk
        simp at hk
      · exact ih h2

/-- C8 counterexample: a legacy proxy built over an instance that is
itself a proxy (accepted by `JProxy.__new__`) unwraps only one level, so
`unwrap (unwrap x)` differs from `unwrap x`. -/
theorem unwrap_not_idempotent :
    JProxy_new sampleLookup (.str "java.lang.Runnable") none (some sampleInnerProxy)
      false = .ok sampleOuterProxy ∧
    JProxy.unwrap (JProxy.unwrap sampleOuterProxy) ≠ JProxy.unwrap sampleOuterProxy := by
  constructor
  · rfl
  · decide

/-- C8 amended: unwrap is total and returns every non-proxy unchanged,
and it is idempotent on every value whose unwrapping is not itself a
proxy; when a proxy records another proxy as its instance, unwrap strips
exactly one level. -/
theorem unwrap_total_identity_and_conditional_idempotence :
    (∀ x : Obj, isJProxyInstance x = false → JProxy.unwrap x = x) ∧
    (∀ x : Obj, isJProxyInstance (JProxy.unwrap x) = false →
      JProxy.unwrap (JProxy.unwrap x) = JProxy.unwrap x) := by
  have key : ∀ y : Obj, isJProxyInstance y = false → JProxy.unwrap y = y := by
    intro y hy
    unfold JProxy.unwrap
    rw [hy]
    rfl
  exact ⟨key, fun x hx => key _ hx⟩

theorem unwrap_total_identity_and_conditional_idempotence_witness :
    JProxy.unwrap (Obj.plain 3) = Obj.plain 3 ∧
    JProxy.unwrap (JProxy.unwrap sampleInnerProxy) = JProxy.unwrap sampleInnerProxy :=
  ⟨unwrap_total_identity_and_conditional_idempotence.1 (Obj.plain 3) rfl,
   unwrap_total_identity_and_conditional_idempotence.2 sampleInnerProxy rfl⟩

/-- C9: Attribute-style lookup on the `_JFromDict` adapter answers every
name from the wrapped mapping: the mapping's value when the name is a
key, an attribute-not-found failure otherwise — for every name, including
names of ordinary object attributes that are not keys. -/
theorem fromdict_member_lookup (dict : List (String × Callable)) (name : String) :
    (∀ v, dictLookup dict name = some v →
      _JFromDict_getattribute dict name = .ok v) ∧
    (dictLookup dict name = none →
      _JFromDict_getattribute dict name =
        .error (.lookupNotFoundError "attribute not found")) ∧
    ((∃ v, (name, v) ∈ dict) ↔ ∃ v, _JFromDict_getattribute dict name = .ok v) := by
  refine ⟨?_, ?_, ?_⟩
  · intro v hv
    unfold _JFromDict_getattribute
    rw [hv]
  · intro hv
    unfold _JFromDict_getattribute
    rw [hv]
  · constructor
    · rintro ⟨v, hv⟩
      obtain ⟨w, hw⟩ := dictLookup_isSome_of_mem dict name v hv
      refine ⟨w, ?_⟩
      unfold _JFromDict_getattribute
      rw [hw]
    · rintro ⟨v, hv⟩
      unfold _JFromDict_getattribute at hv
      cases hd : dictLookup dict name with
      | none =>
        rw [hd] at hv
        cases hv
      | some w =>
        rw [hd] at hv
        injection hv with h1
        subst h1
        exact ⟨w, dictLookup_mem dict name w hd⟩

theorem fromdict_member_lookup_witness :
    _JFromDict_getattribute [("run", 42)] "run" = .ok 42 ∧
    _JFromDict_getattribute [("run", 42)] "dict" =
      .error (.lookupNotFoundError "attribute not found") :=
  ⟨(fromdict_member_lookup [("run", 42)] "run").1 42 rfl,
   (fromdict_member_lookup [("run", 42)] "dict").2.1 rfl⟩

/-- C10: The synthesized `__new__` itself calls the initializer on the
fresh instance with the forwarded arguments, and the standard
instantiation protocol then calls it again, so the host initializer runs
exactly twice per construction. -/
theorem proxy_new_calls_init_then_protocol_again (lookup : String → JClassD)
    (tp : ProxyType) (args : Args) (r : NewResult)
    (h : typeCall lookup tp args = .ok r) :
    (∀ r0, new lookup tp args = .ok r0 → r0.self.initLog = [args]) ∧
    r.self.initLog = [args, args] := by
  have key : ∀ r0, new lookup tp args = .ok r0 → r0.self.initLog = [args] := by
    intro r0 h0
    cases ha : tp.attached with
    | none =>
      have h1 : new lookup tp args =
          (_prepareInterfaces lookup tp.base tp.intfSpec >>= fun s =>
            Except.ok ⟨{ tp with attached := some s }, ⟨s, [args]⟩, true⟩) := by
        unfold new
        rw [ha]
      rw [h1] at h0
      cases hp : _prepareInterfaces lookup tp.base tp.intfSpec with
      | error e =>
        rw [hp] at h0
        cases h0
      | ok s =>
        rw [hp] at h0
        injection h0 with h2
        rw [← h2]
    | some s =>
      have h1 : new lookup tp args = .ok ⟨tp, ⟨s, [args]⟩, false⟩ := by
        unfold new
        rw [ha]
      rw [h1] at h0
      injection h0 with h2
      rw [← h2]
  refine ⟨key, ?_⟩
  unfold typeCall at h
  cases hn : new lookup tp args with
  | error e =>
    rw [hn] at h
    cases h
  | ok r0 =>
    rw [hn] at h
    injection h with h1
    rw [← h1]
    show r0.self.initLog ++ [args] = [args, args]
    rw [key r0 hn]
    rfl


theorem override_validation_complete_witness :
    _checkInterfaceOverrides sampleSet (_classOverrides sampleGoodClass) = .ok () ∧
    containsKey (_classOverrides sampleGoodClass) "run" = true :=
  ⟨(override_validation_complete sampleSet sampleGoodClass).2.1.2 (by decide),
   ((override_validation_complete sampleSet sampleGoodClass).1 "run").2
     ⟨⟨0, some 0⟩, by decide, rfl⟩⟩

theorem deferred_binding_caches_once_witness :
    new sampleLookup ⟨sampleGoodClass, [.str "java.lang.Runnable"], none⟩ [5] =
      .ok ⟨⟨sampleGoodClass, [.str "java.lang.Runnable"], some sampleSet⟩,
        ⟨sampleSet, [[5]]⟩, true⟩ ∧
    new sampleLookup ⟨sampleGoodClass, [.str "java.lang.Runnable"], some sampleSet⟩ [9] =
      .ok ⟨⟨sampleGoodClass, [.str "java.lang.Runnable"], some sampleSet⟩,
        ⟨sampleSet, [[9]]⟩, false⟩ :=
  (deferred_binding_caches_once sampleLookup sampleGoodClass
    [.str "java.lang.Runnable"]).2.2 sampleSet rfl [5] [9]

theorem eager_binding_validates_at_declaration_witness :
    _createJProxy sampleLookup sampleGoodClass [.str "java.lang.Runnable"] false [] =
      .ok ⟨sampleGoodClass, [.str "java.lang.Runnable"], some sampleSet⟩ ∧
    _convertInterfaces sampleLookup [.str "java.lang.Runnable"] = .ok sampleSet :=
  (eager_binding_validates_at_declaration sampleLookup sampleGoodClass
    [.str "java.lang.Runnable"]).2 sampleSet rfl

theorem empty_interface_set_rejected_witness :
    _convertInterfaces sampleLookup [] =
      .error (.configurationError "At least one Java interface must be specified") ∧
    new sampleLookup ⟨sampleGoodClass, [], none⟩ [] =
      .error (.configurationError "At least one Java interface must be specified") :=
  ⟨(empty_interface_set_rejected sampleLookup sampleGoodClass [] rfl).1,
   (empty_interface_set_rejected sampleLookup sampleGoodClass [] rfl).2.2
     ⟨sampleGoodClass, [], none⟩ rfl []⟩

theorem interface_flattening_and_dedup_witness :
    PyVal.jclass sampleRunnable ∈
      resolveStep sampleLookup
        (flattenStep [.str "java.lang.Runnable", .jclass sampleRunnable]) ∧
    (resolveStep sampleLookup
        (flattenStep [.str "java.lang.Runnable", .jclass sampleRunnable])).Nodup :=
  ⟨((interface_flattening_and_dedup sampleLookup
      [.str "java.lang.Runnable", .jclass sampleRunnable]).2.1 _).2
    (Or.inl ⟨"java.lang.Runnable", by decide, by decide⟩),
   (interface_flattening_and_dedup sampleLookup
      [.str "java.lang.Runnable", .jclass sampleRunnable]).1⟩

theorem non_interface_rejected_witness :
    _convertInterfaces sampleLookup [.other 5] =
      .error (.typeKindError (badInterfaceMsg (.other 5))) := by
  obtain ⟨b, hbmem, hbbad, hconv, hrest⟩ :=
    non_interface_rejected sampleLookup sampleGoodClass [.other 5] (.other 5)
      (by decide) (by decide) (Or.inl rfl)
  have h2 : b ∈ [PyVal.other 5] := hbmem
  have h3 : b = PyVal.other 5 := List.mem_singleton.1 h2
  subst h3
  exact hconv

theorem legacy_proxy_construction_witness :
    JProxy_new sampleLookup (.str "java.lang.Runnable") (some [("run", 42)])
      (some (.plain 1)) false =
      .error (.configurationError "Specify only one of dict and inst") ∧
    JProxy_new sampleLookup (.str "java.lang.Runnable") none none false =
      .error (.configurationError "a dict or inst must be specified") ∧
    JProxy_new sampleLookup (.str "java.lang.Runnable") (some [("run", 42)]) none false =
      .ok (.proxy (.fromDict [("run", 42)]) sampleSet false) :=
  legacy_proxy_construction sampleLookup (.str "java.lang.Runnable") sampleSet rfl
    [("run", 42)] (.plain 1) false

theorem proxy_new_calls_init_then_protocol_again_witness :
    (⟨⟨sampleGoodClass, [.str "java.lang.Runnable"], some sampleSet⟩,
        ⟨sampleSet, [[7], [7]]⟩, true⟩ : NewResult).self.initLog = [[7], [7]] :=
  (proxy_new_calls_init_then_protocol_again sampleLookup
      ⟨sampleGoodClass, [.str "java.lang.Runnable"], none⟩ [7] _ rfl).2

end JPype
